import Mathlib

/-!
Verification development for the lebar status-bar generator (src/lebar.go,
second program variant, the one with scoped mouse handlers and per-field
output templates).

The Go program is shallowly embedded: pure helpers become Lean functions,
machine floats become exact rationals (arithmetic here is on small decimal
readings where no claim rests on rounding), external effects (process
spawning, PATH lookup, JSON unmarshalling of click events) are passed in as
explicit oracle functions, and Go panics / Go errors are Except values.
-/

deriving instance DecidableEq for Except

set_option maxRecDepth 2048

/-- A brace character, kept out of string literals. -/
def lbraceChar : Char := Char.ofNat 123

/-- A closing brace character. -/
def rbraceChar : Char := Char.ofNat 125

/- ### Data model (src/lebar.go, type declarations) -/

/-- SymbolList (src/lebar.go): a named list of symbols. -/
structure SymbolList where
  name : String := ""
  symbols : List String := []
deriving DecidableEq, Repr

/-- Output (src/lebar.go): a bar item.  The Go struct field order matters:
the reflection loop in executeBlock visits fields in declaration order and
templates exactly the string-kinded ones.  minWidth has Go type
interface-brace (not string kind), so it is never templated; it is modelled
as an optional string here, which preserves that fact. -/
structure Output where
  name : String := ""
  fullText : String := ""
  shortText : String := ""
  color : String := ""
  background : String := ""
  border : String := ""
  borderTop : Int := 0
  borderRight : Int := 0
  borderBottom : Int := 0
  borderLeft : Int := 0
  minWidth : Option String := none
  align : String := ""
  urgent : Bool := false
  separator : Bool := false
  separatorBlockWidth : Int := 0
  markup : String := ""
deriving DecidableEq, Repr

/-- MouseEvent (src/lebar.go): a mouse event handler. -/
structure MouseEvent where
  interpreter : String := ""
  script : String := ""
  command : String := ""
deriving DecidableEq, Repr

/-- Block (src/lebar.go): a status bar module.  The Go mouseEvents map is
modelled as an association list with unique keys (Go map semantics: lookup
by key). -/
structure Block where
  name : String := ""
  interval : Int := 0
  interpreter : String := ""
  script : String := ""
  command : String := ""
  output : Output := {}
  mouseEvents : List (String × MouseEvent) := []
deriving DecidableEq, Repr

/-- Config (src/lebar.go): the tool's configuration. -/
structure Config where
  stopSignal : Int := 0
  contSignal : Int := 0
  separator : String := ""
  symbolLists : List SymbolList := []
  blocks : List Block := []
  clickEvents : Bool := false
deriving DecidableEq, Repr

/-- I3barClickEvent (src/lebar.go): a click event.  The Go field Instance is
called instanceName because its Go name is a Lean keyword; eventButton is an
integer as in the source. -/
structure I3barClickEvent where
  name : String := ""
  instanceName : String := ""
  x : Int := 0
  y : Int := 0
  button : Int := 0
  event : Int := 0
  relativeX : Int := 0
  relativeY : Int := 0
  width : Int := 0
  height : Int := 0
  scale : ℚ := 0
deriving DecidableEq, Repr

/-- ButtonLeft constant (src/lebar.go). -/
def ButtonLeft : Int := 1

/-- ButtonMiddle constant (src/lebar.go). -/
def ButtonMiddle : Int := 2

/-- ButtonRight constant (src/lebar.go). -/
def ButtonRight : Int := 3

/-- ButtonScrollUp constant (src/lebar.go). -/
def ButtonScrollUp : Int := 4

/-- ButtonScrollDown constant (src/lebar.go). -/
def ButtonScrollDown : Int := 5

/-- eventButton.String (src/lebar.go): button number to name. -/
def buttonString (b : Int) : String :=
  if b = ButtonLeft then "Left"
  else if b = ButtonMiddle then "Middle"
  else if b = ButtonRight then "Right"
  else if b = ButtonScrollUp then "ScrollUp"
  else if b = ButtonScrollDown then "ScrollDown"
  else ""

/-- defaultSymbols (src/lebar.go). -/
def defaultSymbols : List String := ["🟦", "🟩", "🟨", "🟫", "🟥"]

/-- defaultOver100Symbols (src/lebar.go). -/
def defaultOver100Symbols : List String := ["⚠️", "💥", "🆘"]

/-- findSymbolList (src/lebar.go): first symbol list with the given name.
Go returns a nil slice when no list matches; nil and an empty found list are
identified here (both are handled identically by every caller through the
subsequent zero-length checks). -/
def findSymbolList (config : Config) (name : String) : Option (List String) :=
  (config.symbolLists.find? (fun l => l.name == name)).map (fun l => l.symbols)

/-- findBlockByName (src/lebar.go): first block with the given name. -/
def findBlockByName (config : Config) (name : String) : Option Block :=
  config.blocks.find? (fun b => b.name == name)

/- ### Error model (src/lebar.go error returns; kinds per the error paths) -/

/-- The error kinds produced along the block pipeline in src/lebar.go.
Template parse and execute failures are collapsed into formatError carrying
the field name (the source wraps both in an error mentioning the field). -/
inductive GoErr where
  | interpreterMissing
  | interpreterInvalid
  | interpreterNotFound (interpreter : String)
  | commandMissing
  | commandInvalid
  | executionFailed
  | timeout
  | formatError (field : String)
  | nameFieldSet
deriving DecidableEq, Repr

/- ### Numeric model: Go float64 readings as exact rationals -/

/-- Go float-to-int conversion: truncation toward zero. -/
def goTrunc (q : ℚ) : ℤ :=
  if 0 ≤ q then q.floor else q.ceil

/-- Go math.Min on the two (finite) operands. -/
def goMin (a b : ℚ) : ℚ := if a ≤ b then a else b

/-- Go slice indexing with an int index: out-of-range (negative or too
large) panics, modelled as the error case. -/
def goIndex (l : List String) (i : ℤ) : Except Unit String :=
  if 0 ≤ i ∧ i < (l.length : ℤ) then .ok (l.getD i.toNat "") else .error ()

/-- Decimal digit value of a digit character. -/
def digitVal (c : Char) : ℕ := c.toNat - 48

/-- Value of a list of decimal digit characters. -/
def digitsVal (cs : List Char) : ℕ :=
  cs.foldl (fun a c => a * 10 + digitVal c) 0

/-- Model of strconv.ParseFloat (the Go standard library is not part of this
repository; modelled on its documented decimal syntax, restricted to the
plain decimal forms exercised here: optional sign, integer digits, optional
fraction — no exponents, hex floats or Inf/NaN).  Returns the exact rational
value. -/
def parseFloat (s : String) : Option ℚ :=
  let cs := s.data
  let signed : Bool × List Char :=
    match cs with
    | '-' :: rest => (true, rest)
    | '+' :: rest => (false, rest)
    | _ => (false, cs)
  let neg := signed.1
  let body := signed.2
  let intPart := body.takeWhile Char.isDigit
  let rest := body.dropWhile Char.isDigit
  let mag : Option ℚ :=
    match rest with
    | [] => if intPart.isEmpty then none else some (digitsVal intPart : ℚ)
    | '.' :: frac =>
      if frac.all Char.isDigit ∧ ¬(intPart.isEmpty ∧ frac.isEmpty) then
        some ((digitsVal intPart : ℚ) + (digitsVal frac : ℚ) / (10 : ℚ) ^ frac.length)
      else none
    | _ => none
  mag.map (fun q => if neg then -q else q)

/- ### Symbol resolver (the Symbol template function in executeBlock) -/

/-- The dynamic argument values the Symbol template function can receive
(the Go code type-switches on string, string slice and float64). -/
inductive SymArg where
  | str (s : String)
  | strList (l : List String)
  | float (q : ℚ)
deriving DecidableEq, Repr

/-- Decimal digit character for a digit value. -/
def digitChar (n : ℕ) : Char := Char.ofNat (48 + n % 10)

/-- Decimal digit characters of a natural number, most significant first
(fuel-structured so the kernel can evaluate it; a number always has at most
one digit per unit of magnitude, so fuel n + 1 suffices). -/
def natCharsAux : ℕ → ℕ → List Char
  | 0, _ => []
  | fuel + 1, n =>
    if n < 10 then [digitChar n]
    else natCharsAux fuel (n / 10) ++ [digitChar (n % 10)]

/-- Decimal digit characters of a natural number. -/
def natChars (n : ℕ) : List Char := natCharsAux (n + 1) n

/-- Decimal characters of an integer (strconv.Itoa). -/
def intChars (i : ℤ) : List Char :=
  if i < 0 then '-' :: natChars i.natAbs else natChars i.toNat

/-- strconv.Itoa as a string. -/
def intStr (i : ℤ) : String := String.mk (intChars i)

/-- Space-joined concatenation. -/
def joinSpace : List String → String
  | [] => ""
  | [s] => s
  | s :: rest => s ++ " " ++ joinSpace rest

/-- Comma-joined concatenation. -/
def joinComma : List String → String
  | [] => ""
  | [s] => s
  | s :: rest => s ++ "," ++ joinComma rest

/-- strings.TrimSpace on the character list (Go trims leading and trailing
whitespace). -/
def trimChars (cs : List Char) : List Char :=
  ((cs.dropWhile Char.isWhitespace).reverse.dropWhile Char.isWhitespace).reverse

/-- strings.TrimSpace. -/
def goTrimSpace (s : String) : String := String.mk (trimChars s.data)

/-- Model of fmt.Sprintf with verb v on a Symbol argument (fmt is standard
library; a string prints as itself, a string slice as its space-joined
bracketed form; the numeric rendering is a stand-in no claim relies on). -/
def sprintfV : SymArg → String
  | .str s => s
  | .strList l => "[" ++ joinSpace l ++ "]"
  | .float q => intStr q.num ++ "/" ++ intStr (q.den : ℤ)

/-- strings.TrimSuffix of one percent sign (src/lebar.go Symbol function). -/
def stripPct (s : String) : String :=
  if s.data.getLast? = some '%' then String.mk s.data.dropLast else s

/-- Symbol function, choice of the list to override the default symbol list
from argument 2 (src/lebar.go Symbol function, first type switch). -/
def pickSymbolList (config : Config) (a : Option SymArg) : List String :=
  match a with
  | some (.strList l) => if 0 < l.length then l else defaultSymbols
  | some (.str s) =>
    match findSymbolList config s with
    | some l => l
    | none => defaultSymbols
  | _ => defaultSymbols

/-- Symbol function, over-100 list and scale from argument 3 (src/lebar.go
Symbol function, second type switch): a string is first tried as a symbol
list name, else parsed as a positive scale; a positive float is a scale. -/
def pickOverAndScale (config : Config) (a : Option SymArg) : List String × ℚ :=
  match a with
  | some (.strList l) => (if 0 < l.length then l else defaultOver100Symbols, 1)
  | some (.str s) =>
    match findSymbolList config s with
    | some l => (l, 1)
    | none =>
      match parseFloat s with
      | some f => if 0 < f then (defaultOver100Symbols, f) else (defaultOver100Symbols, 1)
      | none => (defaultOver100Symbols, 1)
  | some (.float f) => (defaultOver100Symbols, if 0 < f then f else 1)
  | none => (defaultOver100Symbols, 1)

/-- Symbol function, scale override from argument 4 (src/lebar.go Symbol
function): only a positive float64 is accepted. -/
def pickScale3 (a : Option SymArg) (scale : ℚ) : ℚ :=
  match a with
  | some (.float f) => if 0 < f then f else scale
  | _ => scale

/-- The symbol list in effect after default substitution (the zero-length
check at the end of the argument parsing in the Symbol function). -/
def effSymbolList (config : Config) (args : List SymArg) : List String :=
  if (pickSymbolList config args[1]?).length = 0 then defaultSymbols
  else pickSymbolList config args[1]?

/-- The over-100 list in effect after default substitution. -/
def effOverList (config : Config) (args : List SymArg) : List String :=
  if (pickOverAndScale config args[2]?).1.length = 0 then defaultOver100Symbols
  else (pickOverAndScale config args[2]?).1

/-- The scale in effect (default 1, argument 3 or 4 may override). -/
def effScale (config : Config) (args : List SymArg) : ℚ :=
  pickScale3 args[3]? (pickOverAndScale config args[2]?).2

/-- Index into the symbol list for a scaled value at most 100 (src/lebar.go
Symbol function): int conversion of value over 100 times one less than the
list length. -/
def symbolIdx (q : ℚ) (n : ℕ) : ℤ :=
  goTrunc ((q / 100) * ((n : ℚ) - 1))

/-- Index into the over-100 list for a scaled value above 100 (src/lebar.go
Symbol function): as symbolIdx but clamped above through math.Min applied
before the int conversion. -/
def overIdx (q : ℚ) (n : ℕ) : ℤ :=
  goTrunc (goMin ((n : ℚ) - 1) ((q / 100) * ((n : ℚ) - 1)))

/-- Final branch of the Symbol function (src/lebar.go): pick the glyph from
the applicable list; an out-of-range index is the Go runtime panic. -/
def symbolChoose (number : ℚ) (symbolList overList : List String) (scale : ℚ) :
    Except Unit String :=
  let scaled := number / scale
  if scaled ≤ 100 then
    goIndex symbolList (symbolIdx scaled symbolList.length)
  else
    goIndex overList (overIdx scaled overList.length)

/-- Continuation of the Symbol template function after the first argument
has been parsed: an unparsable first value yields the question-mark
fallback; otherwise the glyph selection over the effective lists and scale,
whose index may be out of range (error = panic). -/
def symbolRun (config : Config) (args : List SymArg) : Option ℚ → Except Unit String
  | none => .ok "?"
  | some number =>
    symbolChoose number (effSymbolList config args) (effOverList config args)
      (effScale config args)

/-- The Symbol template function (src/lebar.go executeBlock, tmplFuncs):
no arguments yield the empty string; otherwise the trailing percent sign is
trimmed off the printed first argument, the rest space-trimmed and parsed
(failure yields the question-mark fallback inside symbolRun), and the glyph
chosen. -/
def SymbolFn (config : Config) (args : List SymArg) : Except Unit String :=
  match args with
  | [] => .ok ""
  | a0 :: _ =>
    symbolRun config args (parseFloat (goTrimSpace (stripPct (sprintfV a0))))

/- ### Template engine model (text/template is Go standard library) -/

/-- Modelled from the spec: the text-substitution templating facility
(Go's text/template, not part of this repository) on the fragment the
theorems exercise — literal text passes through unchanged, a brace-brace
action whose trimmed body is .Text substitutes the captured text, a single
brace is literal, an unclosed action is a template error, and any other
action is conservatively mapped to a template error.  The scanner carries a
mode: outside an action (false, emitting literals) or inside one (true,
accumulating the action body until the closing braces). -/
def tmplScan (text : String) : Bool → List Char → List Char → Except Unit (List Char)
  | false, _, [] => .ok []
  | false, _, [c1] => .ok [c1]
  | false, acc, c1 :: c2 :: rest =>
    if c1 = lbraceChar ∧ c2 = lbraceChar then tmplScan text true [] rest
    else (tmplScan text false acc (c2 :: rest)).map (fun tail => c1 :: tail)
  | true, _, [] => .error ()
  | true, _, [_] => .error ()
  | true, acc, c1 :: c2 :: rest =>
    if c1 = rbraceChar ∧ c2 = rbraceChar then
      if String.mk (trimChars acc.reverse) = ".Text" then
        (tmplScan text false [] rest).map (fun tail => text.data ++ tail)
      else .error ()
    else tmplScan text true (c1 :: acc) (c2 :: rest)

/-- Render one template string against the captured text. -/
def tmplRender (tmplStr text : String) : Except Unit String :=
  (tmplScan text false [] tmplStr.data).map String.mk

/- ### Process Runner (executeScript / executeCommand, src/lebar.go) -/

/-- strings.Fields: split around runs of whitespace, no empty fields. -/
def fieldsAux : List Char → List Char → List (List Char)
  | [], acc => if acc.isEmpty then [] else [acc.reverse]
  | c :: rest, acc =>
    if c.isWhitespace then
      if acc.isEmpty then fieldsAux rest [] else acc.reverse :: fieldsAux rest []
    else fieldsAux rest (c :: acc)

/-- strings.Fields on a string. -/
def goFields (s : String) : List String := (fieldsAux s.data []).map String.mk

/-- The external world one block execution sees: PATH lookup of a launcher
(exec.LookPath) and the outcome of running one child process with an argv
(exec.CommandContext + Output) — both external effects, passed as
oracles.  The spawn result already carries the execution-failure or
deadline-timeout error kinds. -/
structure TickWorld where
  lookPath : String → Option String
  spawn : String → List String → Except GoErr String

/-- executeScript (src/lebar.go): an empty interpreter and an
all-whitespace interpreter are configuration errors, an unresolvable
launcher is interpreterNotFound, otherwise the script body is appended as
the final argument and the child's trimmed output returned. -/
def executeScript (w : TickWorld) (interpreter script : String) : Except GoErr String :=
  if interpreter = "" then .error .interpreterMissing
  else
    match goFields interpreter with
    | [] => .error .interpreterInvalid
    | p :: rest =>
      match w.lookPath p with
      | none => .error (.interpreterNotFound interpreter)
      | some _ => (w.spawn p (rest ++ [script])).map goTrimSpace

/-- executeCommand (src/lebar.go): the command string is split into argv
and run directly, with no interpreter indirection and no PATH pre-check. -/
def executeCommand (w : TickWorld) (command : String) : Except GoErr String :=
  if command = "" then .error .commandMissing
  else
    match goFields command with
    | [] => .error .commandInvalid
    | p :: rest => (w.spawn p rest).map goTrimSpace

/- ### Format Engine (executeBlock, src/lebar.go) -/

/-- One field of the reflection loop in executeBlock: an empty template is
left untouched, any other value is parsed and executed as a template;
either failure aborts the block's render with a format error naming the
field. -/
def renderField (fieldName text tmplStr : String) : Except GoErr String :=
  if tmplStr = "" then .ok tmplStr
  else
    match tmplRender tmplStr text with
    | .ok s => .ok s
    | .error _ => .error (.formatError fieldName)

/-- The reflection loop of executeBlock (src/lebar.go): every string-kinded
Output field is rendered, in Go struct declaration order (Name first); the
non-string fields pass through untouched. -/
def renderAllFields (text : String) (o : Output) : Except GoErr Output := do
  let name ← renderField "Name" text o.name
  let fullText ← renderField "FullText" text o.fullText
  let shortText ← renderField "ShortText" text o.shortText
  let color ← renderField "Color" text o.color
  let background ← renderField "Background" text o.background
  let border ← renderField "Border" text o.border
  let align ← renderField "Align" text o.align
  let markup ← renderField "Markup" text o.markup
  return { o with
    name := name, fullText := fullText, shortText := shortText, color := color,
    background := background, border := border, align := align, markup := markup }

/-- The script-or-command execution step of executeBlock (src/lebar.go):
a nonempty command field runs as a command, otherwise the interpreter runs
the script. -/
def blockExec (w : TickWorld) (block : Block) : Except GoErr String :=
  if block.command ≠ "" then executeCommand w block.command
  else executeScript w block.interpreter block.script

/-- executeBlock (src/lebar.go): run the block's program, trim its output,
reject a configuration that pre-sets the output name, stamp the block's
name on the output, then template every string field (the stamped name
included — the loop runs after the stamp). -/
def executeBlock (w : TickWorld) (block : Block) : Except GoErr Output :=
  match blockExec w block with
  | .error e => .error e
  | .ok outputText =>
    let text := goTrimSpace outputText
    if block.output.name ≠ "" then .error .nameFieldSet
    else renderAllFields text { block.output with name := block.name }

/- ### Block Scheduler (runBlocks and the tick loop in main, src/lebar.go) -/

/-- runBlocks (src/lebar.go) over an explicit block list: first failure
aborts with that error and no outputs; otherwise outputs in declaration
order. -/
def runBlocksAux (w : TickWorld) : List Block → Except GoErr (List Output)
  | [] => .ok []
  | b :: bs =>
    match executeBlock w b with
    | .error e => .error e
    | .ok o =>
      match runBlocksAux w bs with
      | .error e => .error e
      | .ok os => .ok (o :: os)

/-- runBlocks (src/lebar.go). -/
def runBlocks (config : Config) (w : TickWorld) : Except GoErr (List Output) :=
  runBlocksAux w config.blocks

/- ### Protocol Writer (main, src/lebar.go) -/

/-- "true" or "false" as characters. -/
def boolChars (b : Bool) : List Char := if b then "true".data else "false".data

/-- The ClickEvents derivation in main (src/lebar.go): true exactly when
some block declares at least one mouse event handler. -/
def derivedClickEvents (config : Config) : Bool :=
  config.blocks.any (fun b => 0 < b.mouseEvents.length)

/-- The characters of the header JSON object written by main.  json.Marshal
of a Go string-keyed map emits the keys in sorted order, on one line:
click_events, cont_signal, stop_signal, version. -/
def headerData (config : Config) : List Char :=
  lbraceChar ::
    ("\"click_events\":".data ++ boolChars (derivedClickEvents config) ++
      ",\"cont_signal\":".data ++ intChars config.contSignal ++
      ",\"stop_signal\":".data ++ intChars config.stopSignal ++
      ",\"version\":1".data) ++ [rbraceChar]

/-- The header JSON line of main (src/lebar.go). -/
def headerJSON (config : Config) : String := String.mk (headerData config)

/-- Stand-in for json.Marshal of one snapshot item (standard library; the
byte content of a snapshot write is examined by no claim, so the optional
display fields and string escaping are elided). -/
def jsonOutput (o : Output) : String :=
  String.mk ([lbraceChar] ++ "\"name\":\"".data ++ o.name.data ++
    "\",\"full_text\":\"".data ++ o.fullText.data ++ "\"".data ++ [rbraceChar])

/-- Stand-in for json.Marshal of a snapshot (a JSON array of the items). -/
def jsonOutputs (outs : List Output) : String :=
  "[" ++ joinComma (outs.map jsonOutput) ++ "]"

/-- One event observable from main's output loop: a write to standard
output or an operator-log record.  A line write comes from a print that
appends a newline; a raw write appends nothing. -/
inductive WriteEv where
  | line (s : String)
  | raw (s : String)
deriving DecidableEq, Repr

/-- An element of main's observable trace. -/
inductive Ev where
  | write (w : WriteEv)
  | log (e : GoErr)
deriving DecidableEq, Repr

/-- The writes of a trace, in order. -/
def writesOf (evs : List Ev) : List WriteEv :=
  evs.filterMap (fun e => match e with | .write w => some w | .log _ => none)

/-- The logs of a trace, in order. -/
def logsOf (evs : List Ev) : List GoErr :=
  evs.filterMap (fun e => match e with | .write _ => none | .log e => some e)

/-- The tick loop of main (src/lebar.go): each tick runs every block; a
failing tick logs the error and emits nothing (the first-snapshot flag is
left as it was); a successful tick emits a comma first unless it is the
very first snapshot, then the snapshot bytes.  The loop ranges over a
never-closed ticker channel, so the closing bracket print after it is
unreachable while the process runs; this function gives the trace produced
by the first ticks of the infinite loop. -/
def tickLoop (config : Config) : List TickWorld → Bool → List Ev
  | [], _ => []
  | w :: ws, first =>
    match runBlocks config w with
    | .error e => .log e :: tickLoop config ws first
    | .ok outs =>
      if first then .write (.raw (jsonOutputs outs)) :: tickLoop config ws false
      else .write (.raw ",") :: .write (.raw (jsonOutputs outs)) :: tickLoop config ws false

/-- The observable trace of main (src/lebar.go) through its first ticks:
the header line, the opening-bracket line, then the tick loop's writes and
logs. -/
def mainTrace (config : Config) (ticks : List TickWorld) : List Ev :=
  .write (.line (headerJSON config)) :: .write (.line "[") :: tickLoop config ticks true

/-- The serialized snapshots of the successful ticks, in order. -/
def tickSnapshots (config : Config) (ticks : List TickWorld) : List String :=
  ticks.filterMap (fun w => (runBlocks config w).toOption.map jsonOutputs)

/-- Comma-preceded raw writes for each string. -/
def commaTail (l : List String) : List WriteEv :=
  l.flatMap (fun s => [.raw ",", .raw s])

/-- The comma-separated framing of a snapshot sequence: no comma before the
first snapshot, one comma write immediately before every later one. -/
def snapshotFrames : List String → List WriteEv
  | [] => []
  | s :: rest => .raw s :: commaTail rest

/- ### Click Dispatcher (handleClickEvents and NewEventFromRaw, src/lebar.go) -/

/-- The process environment as Go's os package exposes it: a key-value
association with os.Setenv overwrite semantics (update in place when the
key exists, append otherwise). -/
def setenv (env : List (String × String)) (k v : String) : List (String × String) :=
  if env.any (fun p => p.1 == k) then
    env.map (fun p => if p.1 == k then (k, v) else p)
  else env ++ [(k, v)]

/-- os.Getenv-style lookup. -/
def getenv (env : List (String × String)) (k : String) : Option String :=
  (env.find? (fun p => p.1 == k)).map (fun p => p.2)

/-- The restore loop of the deferred closure in handleClickEvents
(src/lebar.go): os.Clearenv, then one os.Setenv per saved entry. -/
def restoreEnv (old : List (String × String)) : List (String × String) :=
  old.foldl (fun e p => setenv e p.1 p.2) []

/-- The pre-processing of NewEventFromRaw (src/lebar.go): strip leading
commas and whitespace. -/
def trimLeadCommaSpace (s : String) : String :=
  String.mk (s.data.dropWhile (fun c => c = ',' ∨ c.isWhitespace))

/-- The pre-processing of NewEventFromRaw (src/lebar.go): drop from the
left up to the first opening brace. -/
def trimToOpenBrace (s : String) : String :=
  String.mk (s.data.dropWhile (fun c => c ≠ lbraceChar))

/-- The pre-processing of NewEventFromRaw (src/lebar.go): drop from the
right down to the last closing brace. -/
def trimPastCloseBrace (s : String) : String :=
  String.mk ((s.data.reverse.dropWhile (fun c => c ≠ rbraceChar)).reverse)

/-- NewEventFromRaw (src/lebar.go): pre-process the raw record, then
unmarshal it; the JSON unmarshaller itself is the external go-json
library, passed as an oracle returning the parsed event or nothing. -/
def NewEventFromRaw (unmarshal : String → Option I3barClickEvent) (raw : String) :
    Option I3barClickEvent :=
  unmarshal (trimPastCloseBrace (trimToOpenBrace (trimLeadCommaSpace raw)))

/-- Go map lookup on a block's mouse events. -/
def lookupMouseEvent (block : Block) (key : String) : Option MouseEvent :=
  (block.mouseEvents.find? (fun p => p.1 == key)).map (fun p => p.2)

/-- One handler launch observed from the dispatcher: the block, the
resolved interpreter, the payload (command text or script body), whether it
ran as a command, and the process environment in force at spawn time. -/
structure Invocation where
  blockName : String
  interpreter : String
  payload : String
  isCommand : Bool
  envAt : List (String × String)
deriving DecidableEq, Repr

/-- The dispatcher's state while reading records: the process environment,
the stack of environment snapshots whose restores are deferred (most
recent first — Go defers run at function return, last in first out), and
the handler launches so far. -/
structure DispState where
  env : List (String × String)
  deferredEnvs : List (List (String × String))
  invocations : List Invocation
deriving DecidableEq, Repr

/-- The body of the record loop in handleClickEvents (src/lebar.go) for one
line: skip blank lines, lone commas, unparsable records, unknown block
names, buttons with no registered handler, and handlers with neither script
nor command; otherwise resolve the interpreter, snapshot the environment,
set BUTTON, X and Y process-wide, defer the restore of the snapshot (the
defer runs at function return, not at the end of the iteration), and launch
the handler. -/
def handleLine (config : Config) (unmarshal : String → Option I3barClickEvent)
    (st : DispState) (line : String) : DispState :=
  if (goTrimSpace line) = "" then st
  else if line = "," then st
  else
    match NewEventFromRaw unmarshal line with
    | none => st
    | some ev =>
      match findBlockByName config ev.name with
      | none => st
      | some block =>
        match lookupMouseEvent block (buttonString ev.button) with
        | none => st
        | some me =>
          if me.script = "" ∧ me.command = "" then st
          else
            let interpreter := if me.interpreter = "" then block.interpreter else me.interpreter
            let oldEnv := st.env
            let env1 := setenv (setenv (setenv st.env "BUTTON" (buttonString ev.button))
              "X" (intStr ev.x)) "Y" (intStr ev.y)
            let inv : Invocation :=
              if me.command ≠ "" then
                ⟨block.name, interpreter, me.command, true, env1⟩
              else
                ⟨block.name, interpreter, me.script, false, env1⟩
            { env := env1
              deferredEnvs := oldEnv :: st.deferredEnvs
              invocations := st.invocations ++ [inv] }

/-- The record loop of handleClickEvents over the remaining input lines. -/
def dispatchLines (config : Config) (unmarshal : String → Option I3barClickEvent)
    (st : DispState) : List String → DispState
  | [] => st
  | line :: rest => dispatchLines config unmarshal (handleLine config unmarshal st line) rest

/-- handleClickEvents (src/lebar.go) over the whole standard-input line
sequence: one initial scanner.Scan consumes and only logs the first line,
then the record loop runs on the rest.  The deferred environment restores
have not yet run in the returned state. -/
def handleClickEvents (config : Config) (unmarshal : String → Option I3barClickEvent)
    (env0 : List (String × String)) (lines : List String) : DispState :=
  match lines with
  | [] => ⟨env0, [], []⟩
  | _ :: rest => dispatchLines config unmarshal ⟨env0, [], []⟩ rest

/-- The process environment after handleClickEvents returns and its
deferred closures run, most recent first: each restore overwrites the
whole environment, so the oldest snapshot (restored last) wins. -/
def finalEnv (st : DispState) : List (String × String) :=
  st.deferredEnvs.foldl (fun _ old => restoreEnv old) st.env

/- ### Concrete fixtures used by the witness and counterexample theorems -/

/-- A world where launcher okcmd succeeds with output hi and every other
spawn fails with a non-zero exit. -/
def wAB : TickWorld :=
  ⟨fun _ => some "/bin/x", fun p _ => if p = "okcmd" then .ok "hi" else .error .executionFailed⟩

/-- A block whose command succeeds. -/
def blockA : Block := { name := "A", command := "okcmd run" }

/-- A block whose command exits non-zero. -/
def blockB : Block := { name := "B", command := "badcmd run" }

/-- A two-block configuration: A succeeds, then B fails. -/
def cfgAB : Config := { blocks := [blockA, blockB] }

/-- A world whose every spawn prints hello. -/
def wHello : TickWorld := ⟨fun _ => some "/bin/i", fun _ _ => .ok "hello"⟩

/-- A block whose name is itself a template action over the captured
text. -/
def blockTmplName : Block :=
  { name := "\x7b\x7b .Text \x7d\x7d", interpreter := "sh", script := "s" }

/-- A plainly named block. -/
def blockPlain : Block := { name := "A", interpreter := "sh", script := "x" }

/-- A block whose configuration pre-sets the output name field. -/
def blockPresetName : Block :=
  { name := "A", interpreter := "sh", script := "x", output := { name := "X" } }

/-- A block carrying one Left-button handler. -/
def blockClick : Block :=
  { name := "b"
    interpreter := "sh"
    mouseEvents := [("Left", { script := "toggle" })] }

/-- A configuration with one block carrying one Left-button handler. -/
def cfgClick : Config := { blocks := [blockClick] }

/-- An unmarshal oracle recognising two records. -/
def unmTwo : String → Option I3barClickEvent := fun s =>
  if s = "\x7bone\x7d" then some { name := "b", button := 1, x := 5, y := 7 }
  else if s = "\x7btwo\x7d" then some { name := "b", button := 1, x := 1, y := 2 }
  else none

/-- A starting environment without BUTTON, X or Y. -/
def envStart : List (String × String) := [("PATH", "/bin")]

/-- An event naming a block that does not exist in cfgClick. -/
def evNoBlock : I3barClickEvent := { name := "nope", button := 1 }

/-- An unmarshal oracle that always yields evNoBlock. -/
def unmNoBlock : String → Option I3barClickEvent := fun _ => some evNoBlock

/-- An event for block b on a button with no registered handler. -/
def evNoHandler : I3barClickEvent := { name := "b", button := 3 }

/-- An unmarshal oracle that always yields evNoHandler. -/
def unmNoHandler : String → Option I3barClickEvent := fun _ => some evNoHandler

/- ### Theorems -/

/-- Claim C10: when the Symbol template function is called with zero
arguments it returns the empty string — not the fallback glyph and not an
error — so a template invoking it with no value renders nothing for that
call. -/
theorem C10_symbol_no_args (config : Config) : SymbolFn config [] = .ok "" := rfl

/-- Claim C8: for every first argument to the symbol resolver, a trailing
percent suffix is stripped, the remainder space-trimmed and parsed as a
float, and a parse failure produces the literal fallback glyph, whatever
the other arguments are, rather than an error. -/
theorem C8_parse_failure_fallback (config : Config) (args : List SymArg) (a0 : SymArg)
    (hhead : args.head? = some a0)
    (hparse : parseFloat (goTrimSpace (stripPct (sprintfV a0))) = none) :
    SymbolFn config args = .ok "?" := by
  cases args with
  | nil => simp at hhead
  | cons a rest =>
    simp only [List.head?, Option.some.injEq] at hhead
    subst hhead
    simp [SymbolFn, hparse, symbolRun]

/-- Witness for C8: an unparsable first value with extra arguments
supplied still yields the fallback glyph. -/
theorem C8_witness : SymbolFn {} [.str "abc", .strList ["x"], .float 2] = .ok "?" :=
  C8_parse_failure_fallback {} _ (.str "abc") rfl (by decide)

/-- Claim C9: the click dispatcher unconditionally consumes and discards
the first input line before its event loop: the dispatcher's outcome does
not depend on what the first line holds, and a first line on its own —
well-formed or not — never yields a handler launch. -/
theorem C9_first_line_swallowed (config : Config)
    (unmarshal : String → Option I3barClickEvent) (env0 : List (String × String))
    (l1 l2 : String) (rest : List String) :
    handleClickEvents config unmarshal env0 (l1 :: rest)
        = handleClickEvents config unmarshal env0 (l2 :: rest)
    ∧ handleClickEvents config unmarshal env0 (l1 :: rest)
        = dispatchLines config unmarshal ⟨env0, [], []⟩ rest
    ∧ (handleClickEvents config unmarshal env0 [l1]).invocations = [] :=
  ⟨rfl, rfl, rfl⟩

/-- Claim C7: a parsed click event is routed by exact block-name match;
when no block with that name exists, or the matched block has no handler
for the event's button, the event is dropped: the dispatcher state is
unchanged — in particular no handler launch is recorded — and processing
the remaining records proceeds exactly as if the record had not been
there. -/
theorem C7_routing_miss_drops (config : Config)
    (unmarshal : String → Option I3barClickEvent) (st : DispState)
    (line : String) (rest : List String) (ev : I3barClickEvent)
    (hparse : NewEventFromRaw unmarshal line = some ev)
    (hmiss : findBlockByName config ev.name = none ∨
      ∀ block, findBlockByName config ev.name = some block →
        lookupMouseEvent block (buttonString ev.button) = none) :
    handleLine config unmarshal st line = st
    ∧ dispatchLines config unmarshal st (line :: rest)
        = dispatchLines config unmarshal st rest := by
  have h1 : handleLine config unmarshal st line = st := by
    by_cases hA : goTrimSpace line = ""
    · simp [handleLine, hA]
    · by_cases hB : line = ","
      · simp [handleLine, hA, hB]
      · rcases hmiss with h | h
        · simp [handleLine, hA, hB, hparse, h]
        · cases hfind : findBlockByName config ev.name with
          | none => simp [handleLine, hA, hB, hparse, hfind]
          | some block => simp [handleLine, hA, hB, hparse, hfind, h block hfind]
  exact ⟨h1, by simp [dispatchLines, h1]⟩

/-- Witness for C7: an event naming an unknown block, and an event for a
button with no registered handler, each leave the dispatcher state
unchanged. -/
theorem C7_witness :
    (handleLine cfgClick unmNoBlock ⟨envStart, [], []⟩ "x" = ⟨envStart, [], []⟩
      ∧ dispatchLines cfgClick unmNoBlock ⟨envStart, [], []⟩ ["x", "y"]
          = dispatchLines cfgClick unmNoBlock ⟨envStart, [], []⟩ ["y"])
    ∧ handleLine cfgClick unmNoHandler ⟨envStart, [], []⟩ "x" = ⟨envStart, [], []⟩ := by
  refine ⟨C7_routing_miss_drops cfgClick unmNoBlock ⟨envStart, [], []⟩ "x" ["y"] evNoBlock
      rfl (Or.inl (by decide)), ?_⟩
  exact (C7_routing_miss_drops cfgClick unmNoHandler ⟨envStart, [], []⟩ "x" [] evNoHandler
      rfl (Or.inr (by decide))).1

/-- Claim C1: a failing block aborts the whole tick: the tick contributes
exactly one log record and no write at all (no snapshot, not even the
outputs of earlier successful blocks), the first-snapshot flag is
untouched, and the loop proceeds with the next tick; in particular with
blocks A (succeeds) then B (fails) the tick is exactly one logged error. -/
theorem C1_failed_tick_emits_nothing :
    (∀ (config : Config) (w : TickWorld) (ts : List TickWorld) (first : Bool) (e : GoErr),
        runBlocks config w = .error e →
        tickLoop config (w :: ts) first = .log e :: tickLoop config ts first)
    ∧ (∀ (config : Config) (w : TickWorld) (A B : Block) (oA : Output) (eB : GoErr),
        config.blocks = [A, B] →
        executeBlock w A = .ok oA →
        executeBlock w B = .error eB →
        ∀ (ts : List TickWorld) (first : Bool),
          tickLoop config (w :: ts) first = .log eB :: tickLoop config ts first) := by
  constructor
  · intro config w ts first e h
    simp [tickLoop, h]
  · intro config w A B oA eB hblocks hA hB ts first
    have hrb : runBlocks config w = .error eB := by
      simp [runBlocks, hblocks, runBlocksAux, hA, hB]
    simp [tickLoop, hrb]

/-- Witness for C1: with block A succeeding and block B failing, the tick
trace is exactly one logged execution failure — no comma, no snapshot
bytes. -/
theorem C1_witness : tickLoop cfgAB [wAB] true = [.log .executionFailed] := by
  have h := C1_failed_tick_emits_nothing.2 cfgAB wAB blockA blockB { name := "A" }
    .executionFailed rfl (by decide) (by decide) [] true
  simpa [tickLoop] using h

/-- The write projection passes a write through. -/
theorem writesOf_cons_write (w : WriteEv) (l : List Ev) :
    writesOf (.write w :: l) = w :: writesOf l := rfl

/-- The write projection drops a log record. -/
theorem writesOf_cons_log (e : GoErr) (l : List Ev) :
    writesOf (.log e :: l) = writesOf l := rfl

/-- The writes of the tick loop are exactly the comma-joined snapshot
frames of the successful ticks; once a first snapshot has been written
(flag false) every snapshot is comma-prefixed. -/
theorem tickLoop_writes (config : Config) (ts : List TickWorld) :
    ∀ first : Bool, writesOf (tickLoop config ts first) =
      if first then snapshotFrames (tickSnapshots config ts)
      else commaTail (tickSnapshots config ts) := by
  induction ts with
  | nil =>
    intro first
    cases first <;> simp [tickLoop, tickSnapshots, writesOf, snapshotFrames, commaTail]
  | cons w ws ih =>
    intro first
    cases hrb : runBlocks config w with
    | error e =>
      have hsnap : tickSnapshots config (w :: ws) = tickSnapshots config ws := by
        simp [tickSnapshots, hrb, Except.toOption]
      cases first <;>
        simp [tickLoop, hrb, writesOf_cons_log, ih, hsnap]
    | ok outs =>
      have hsnap : tickSnapshots config (w :: ws)
          = jsonOutputs outs :: tickSnapshots config ws := by
        simp [tickSnapshots, hrb, Except.toOption]
      cases first <;>
        simp [tickLoop, hrb, writesOf_cons_write, ih, hsnap,
          snapshotFrames, commaTail]

/-- A comma-joined tail holds only raw writes. -/
theorem commaTail_no_line (s : String) (l : List String) :
    WriteEv.line s ∉ commaTail l := by
  simp [commaTail, List.mem_flatMap]

/-- Snapshot frames hold only raw writes. -/
theorem snapshotFrames_no_line (s : String) (l : List String) :
    WriteEv.line s ∉ snapshotFrames l := by
  cases l with
  | nil => simp [snapshotFrames]
  | cons a r => simp [snapshotFrames, commaTail, List.mem_flatMap]

/-- A decimal digit character is never a newline. -/
theorem digitChar_ne_newline (k : ℕ) : digitChar k ≠ '\n' := by
  have h : k % 10 < 10 := Nat.mod_lt _ (by norm_num)
  unfold digitChar
  set m := k % 10 with hm
  interval_cases m <;> decide

/-- Decimal digit runs never hold a newline. -/
theorem natCharsAux_ne_newline (fuel : ℕ) : ∀ n : ℕ, '\n' ∉ natCharsAux fuel n := by
  induction fuel with
  | zero => intro n; simp [natCharsAux]
  | succ f ih =>
    intro n
    by_cases h : n < 10
    · simp only [natCharsAux, if_pos h, List.mem_singleton]
      exact fun hh => digitChar_ne_newline n hh.symm
    · simp only [natCharsAux, if_neg h, List.mem_append, List.mem_singleton]
      rintro (hh | hh)
      · exact ih _ hh
      · exact digitChar_ne_newline _ hh.symm

/-- Itoa output never holds a newline. -/
theorem intChars_ne_newline (i : ℤ) : '\n' ∉ intChars i := by
  unfold intChars natChars
  by_cases h : i < 0
  · simp only [if_pos h, List.mem_cons]
    rintro (hh | hh)
    · exact absurd hh (by decide)
    · exact natCharsAux_ne_newline _ _ hh
  · simp only [if_neg h]
    exact natCharsAux_ne_newline _ _

/-- The header JSON is a single line: it holds no newline character. -/
theorem headerJSON_no_newline (config : Config) : '\n' ∉ (headerJSON config).data := by
  show '\n' ∉ headerData config
  unfold headerData
  intro h
  rcases List.mem_cons.mp h with h | h
  · exact absurd h (by decide)
  rcases List.mem_append.mp h with h | h
  swap
  · exact absurd h (by decide)
  rcases List.mem_append.mp h with h | h
  swap
  · exact absurd h (by decide)
  rcases List.mem_append.mp h with h | h
  swap
  · exact intChars_ne_newline _ h
  rcases List.mem_append.mp h with h | h
  swap
  · exact absurd h (by decide)
  rcases List.mem_append.mp h with h | h
  swap
  · exact intChars_ne_newline _ h
  rcases List.mem_append.mp h with h | h
  swap
  · exact absurd h (by decide)
  rcases List.mem_append.mp h with h | h
  · exact absurd h (by decide)
  · cases hb : derivedClickEvents config <;> rw [hb] at h <;> exact absurd h (by decide)

/-- The header JSON line is never the closing bracket. -/
theorem headerJSON_ne_closing (config : Config) : headerJSON config ≠ "]" := by
  intro h
  have hd : headerData config = "]".data := congrArg String.data h
  have h1 : (headerData config).head? = some lbraceChar := by
    rw [headerData]; rfl
  rw [hd] at h1
  exact absurd h1 (by decide)

/-- Claim C5: the protocol writer's first two writes are exactly a
newline-free JSON header line and a line holding only the opening bracket;
after them the writes are the successful snapshots with a single comma
write immediately before every snapshot except the very first; and no
closing-bracket line is ever written while the loop runs. -/
theorem C5_protocol_framing (config : Config) (ticks : List TickWorld) :
    writesOf (mainTrace config ticks)
        = .line (headerJSON config) :: .line "[" ::
            snapshotFrames (tickSnapshots config ticks)
    ∧ '\n' ∉ (headerJSON config).data
    ∧ WriteEv.line "]" ∉ writesOf (mainTrace config ticks) := by
  have hw : writesOf (mainTrace config ticks)
      = .line (headerJSON config) :: .line "[" ::
          snapshotFrames (tickSnapshots config ticks) := by
    have ht := tickLoop_writes config ticks true
    simp only [if_pos rfl] at ht
    simp [mainTrace, writesOf_cons_write, ht]
  refine ⟨hw, headerJSON_no_newline config, ?_⟩
  rw [hw]
  intro h
  rcases List.mem_cons.mp h with h | h
  · injection h with hh
    exact headerJSON_ne_closing config hh.symm
  rcases List.mem_cons.mp h with h | h
  · injection h with hh
    exact absurd hh (by decide)
  · exact snapshotFrames_no_line "]" _ h

/-- Batteries rational floor agrees with the Mathlib floor. -/
theorem ratFloor_eq (q : ℚ) : q.floor = ⌊q⌋ := by
  rw [Rat.floor_def, Rat.floor_def']

/-- On nonnegative values Go truncation is the floor. -/
theorem goTrunc_of_nonneg {q : ℚ} (h : 0 ≤ q) : goTrunc q = ⌊q⌋ := by
  rw [goTrunc, if_pos h, ratFloor_eq]

/-- The symbol index is nonnegative for a nonnegative reading. -/
theorem symbolIdx_nonneg {q : ℚ} {n : ℕ} (hq : 0 ≤ q) (hn : 1 ≤ n) :
    0 ≤ symbolIdx q n := by
  have hn1 : (1:ℚ) ≤ (n:ℚ) := by exact_mod_cast hn
  have hx : (0:ℚ) ≤ (q / 100) * ((n : ℚ) - 1) :=
    mul_nonneg (div_nonneg hq (by norm_num)) (by linarith)
  rw [symbolIdx, goTrunc_of_nonneg hx]
  exact Int.floor_nonneg.mpr hx

/-- The symbol index stays below the list length for readings up to 100. -/
theorem symbolIdx_lt {q : ℚ} {n : ℕ} (hq : 0 ≤ q) (h100 : q ≤ 100) (hn : 1 ≤ n) :
    symbolIdx q n < n := by
  have hn1 : (1:ℚ) ≤ (n:ℚ) := by exact_mod_cast hn
  have hx0 : (0:ℚ) ≤ (n:ℚ) - 1 := by linarith
  have hdiv : q / 100 ≤ 1 := by
    rw [div_le_one (by norm_num : (0:ℚ) < 100)]; exact h100
  have hx : (q / 100) * ((n : ℚ) - 1) ≤ (n:ℚ) - 1 := by
    calc (q / 100) * ((n : ℚ) - 1) ≤ 1 * ((n:ℚ) - 1) :=
          mul_le_mul_of_nonneg_right hdiv hx0
      _ = (n:ℚ) - 1 := one_mul _
  have hxnn : (0:ℚ) ≤ (q / 100) * ((n : ℚ) - 1) :=
    mul_nonneg (div_nonneg hq (by norm_num)) hx0
  rw [symbolIdx, goTrunc_of_nonneg hxnn]
  have hle : ⌊(q / 100) * ((n : ℚ) - 1)⌋ ≤ ⌊(n:ℚ) - 1⌋ := Int.floor_le_floor hx
  have heq : ⌊(n:ℚ) - 1⌋ = (n:ℤ) - 1 := by
    rw [show ((n:ℚ) - 1) = (((n:ℤ) - 1 : ℤ) : ℚ) by push_cast; ring]
    exact Int.floor_intCast _
  omega

/-- The symbol index is monotone in the reading. -/
theorem symbolIdx_mono {q1 q2 : ℚ} {n : ℕ} (h0 : 0 ≤ q1) (h12 : q1 ≤ q2) (hn : 1 ≤ n) :
    symbolIdx q1 n ≤ symbolIdx q2 n := by
  have hn1 : (1:ℚ) ≤ (n:ℚ) := by exact_mod_cast hn
  have hx0 : (0:ℚ) ≤ (n:ℚ) - 1 := by linarith
  have hx1 : (0:ℚ) ≤ (q1 / 100) * ((n : ℚ) - 1) :=
    mul_nonneg (div_nonneg h0 (by norm_num)) hx0
  have hx2 : (0:ℚ) ≤ (q2 / 100) * ((n : ℚ) - 1) :=
    mul_nonneg (div_nonneg (le_trans h0 h12) (by norm_num)) hx0
  have hle : (q1 / 100) * ((n : ℚ) - 1) ≤ (q2 / 100) * ((n : ℚ) - 1) :=
    mul_le_mul_of_nonneg_right ((div_le_div_iff_of_pos_right (by norm_num : (0:ℚ) < 100)).mpr h12) hx0
  rw [symbolIdx, symbolIdx, goTrunc_of_nonneg hx1, goTrunc_of_nonneg hx2]
  exact Int.floor_le_floor hle

/-- Go math.Min of nonnegative operands is nonnegative and at most the
first operand. -/
theorem goMin_bounds {a b : ℚ} (ha : 0 ≤ a) (hb : 0 ≤ b) :
    0 ≤ goMin a b ∧ goMin a b ≤ a := by
  unfold goMin
  split
  · exact ⟨ha, le_refl a⟩
  · next h => exact ⟨hb, le_of_not_le h⟩

/-- The overflow index is clamped into range for nonnegative readings. -/
theorem overIdx_bounds {q : ℚ} {n : ℕ} (hq : 0 ≤ q) (hn : 1 ≤ n) :
    0 ≤ overIdx q n ∧ overIdx q n < n := by
  have hn1 : (1:ℚ) ≤ (n:ℚ) := by exact_mod_cast hn
  have hx0 : (0:ℚ) ≤ (n:ℚ) - 1 := by linarith
  have hxnn : (0:ℚ) ≤ (q / 100) * ((n : ℚ) - 1) :=
    mul_nonneg (div_nonneg hq (by norm_num)) hx0
  obtain ⟨hm0, hm1⟩ := goMin_bounds hx0 hxnn
  rw [overIdx, goTrunc_of_nonneg hm0]
  refine ⟨Int.floor_nonneg.mpr hm0, ?_⟩
  have hle : ⌊goMin ((n:ℚ) - 1) ((q / 100) * ((n : ℚ) - 1))⌋ ≤ ⌊(n:ℚ) - 1⌋ :=
    Int.floor_le_floor hm1
  have heq : ⌊(n:ℚ) - 1⌋ = (n:ℤ) - 1 := by
    rw [show ((n:ℚ) - 1) = (((n:ℤ) - 1 : ℤ) : ℚ) by push_cast; ring]
    exact Int.floor_intCast _
  omega

/-- An in-range Go index succeeds and returns a list element. -/
theorem goIndex_mem {l : List String} {i : ℤ} (h0 : 0 ≤ i) (hlt : i < (l.length : ℤ)) :
    goIndex l i = .ok (l.getD i.toNat "") ∧ l.getD i.toNat "" ∈ l := by
  have hn : i.toNat < l.length := by omega
  refine ⟨by rw [goIndex, if_pos ⟨h0, hlt⟩], ?_⟩
  have hg : l.getD i.toNat "" = l[i.toNat] := by
    rw [List.getD_eq_getElem?_getD, List.getElem?_eq_getElem hn]
    rfl
  rw [hg]
  exact List.getElem_mem hn

/-- The scale chosen by the third-or-fourth-argument parsing is positive. -/
theorem pickOverAndScale_pos (config : Config) (a : Option SymArg) :
    0 < (pickOverAndScale config a).2 := by
  rcases a with - | a
  · simp [pickOverAndScale]
  rcases a with s | l | f
  · simp only [pickOverAndScale]
    cases hfs : findSymbolList config s with
    | none =>
      cases hp : parseFloat s with
      | none => norm_num
      | some f =>
        by_cases hf : 0 < f
        · simp [hf]
        · simp [hf]
    | some l => norm_num
  · simp only [pickOverAndScale]
    norm_num
  · simp only [pickOverAndScale]
    by_cases hf : 0 < f
    · simp [hf]
    · simp [hf]

/-- The scale in effect is always positive: the default is one and every
override is guarded by a positivity test. -/
theorem effScale_pos (config : Config) (args : List SymArg) :
    0 < effScale config args := by
  unfold effScale pickScale3
  rcases h3 : args[3]? with - | a3
  · exact pickOverAndScale_pos config _
  rcases a3 with s | l | f
  · exact pickOverAndScale_pos config _
  · exact pickOverAndScale_pos config _
  · by_cases hf : 0 < f
    · simp [hf]
    · simpa [hf] using pickOverAndScale_pos config _

/-- The symbol list in effect is never empty. -/
theorem effSymbolList_ne_nil (config : Config) (args : List SymArg) :
    effSymbolList config args ≠ [] := by
  unfold effSymbolList
  split
  · simp [defaultSymbols]
  · next h => exact fun hh => h (by rw [hh]; rfl)

/-- The overflow list in effect is never empty. -/
theorem effOverList_ne_nil (config : Config) (args : List SymArg) :
    effOverList config args ≠ [] := by
  unfold effOverList
  split
  · simp [defaultOver100Symbols]
  · next h => exact fun hh => h (by rw [hh]; rfl)

/-- For a nonnegative reading and positive scale, the glyph choice always
lands inside one of the two (nonempty) lists. -/
theorem symbolChoose_total {number scale : ℚ} {sl ol : List String}
    (hq : 0 ≤ number) (hs : 0 < scale) (hsl : sl ≠ []) (hol : ol ≠ []) :
    ∃ g, symbolChoose number sl ol scale = .ok g ∧ (g ∈ sl ∨ g ∈ ol) := by
  have hscaled : 0 ≤ number / scale := div_nonneg hq (le_of_lt hs)
  have hsl1 : 1 ≤ sl.length := List.length_pos.mpr hsl
  have hol1 : 1 ≤ ol.length := List.length_pos.mpr hol
  simp only [symbolChoose]
  by_cases h100 : number / scale ≤ 100
  · rw [if_pos h100]
    obtain ⟨he, hm⟩ :=
      goIndex_mem (symbolIdx_nonneg hscaled hsl1) (symbolIdx_lt hscaled h100 hsl1)
    exact ⟨_, he, Or.inl hm⟩
  · rw [if_neg h100]
    obtain ⟨h0, hlt⟩ := overIdx_bounds hscaled hol1
    obtain ⟨he, hm⟩ := goIndex_mem h0 hlt
    exact ⟨_, he, Or.inr hm⟩

/-- Counterexample to claim C4: the computed index is not clamped below —
the reading minus twenty-five, with the lists left at their defaults,
yields index minus one and the resolver indexes out of bounds (a runtime
panic) instead of returning a glyph. -/
theorem C4_counterexample : SymbolFn {} [.str "-25"] = .error () := by
  with_unfolding_all decide

/-- Claim C4 (amended): for every numeric input whose parsed value is
nonnegative (hence whose scaled value is nonnegative, the scale always
being positive), and every symbol and overflow list in effect after
default substitution, the computed index is clamped into the valid range
of the list it indexes, so the resolver returns a glyph of one of the two
lists; negative readings are not clamped below and can index out of
bounds. -/
theorem C4_amended (config : Config) (args : List SymArg) (a0 : SymArg) (q : ℚ)
    (hhead : args.head? = some a0)
    (hparse : parseFloat (goTrimSpace (stripPct (sprintfV a0))) = some q)
    (hq : 0 ≤ q) :
    ∃ g, SymbolFn config args = .ok g
      ∧ (g ∈ effSymbolList config args ∨ g ∈ effOverList config args) := by
  cases args with
  | nil => simp at hhead
  | cons a rest =>
    simp only [List.head?, Option.some.injEq] at hhead
    subst hhead
    simp only [SymbolFn, hparse, symbolRun]
    exact symbolChoose_total hq (effScale_pos config _)
      (effSymbolList_ne_nil config _) (effOverList_ne_nil config _)

/-- Witness for the amended C4 at the reading 42 with a custom list. -/
theorem C4_witness :
    ∃ g, SymbolFn {} [.str "42", .strList ["u", "v"]] = .ok g
      ∧ (g ∈ effSymbolList {} [.str "42", .strList ["u", "v"]]
          ∨ g ∈ effOverList {} [.str "42", .strList ["u", "v"]]) :=
  C4_amended {} _ (.str "42") 42 rfl (by with_unfolding_all decide)
    (by with_unfolding_all decide)

/-- The second argument, a nonempty literal list, becomes the symbol list
in effect. -/
theorem effSymbolList_strList (config : Config) (a : SymArg) (L : List String)
    (hL : L ≠ []) : effSymbolList config [a, .strList L] = L := by
  have h : 0 < L.length := List.length_pos.mpr hL
  have h0 : L.length ≠ 0 := Nat.pos_iff_ne_zero.mp h
  simp [effSymbolList, pickSymbolList, h, h0]

/-- With exactly two arguments the scale in effect is one. -/
theorem effScale_two (config : Config) (a b : SymArg) :
    effScale config [a, b] = 1 := by
  simp [effScale, pickScale3, pickOverAndScale]

/-- Claim C6: over readings in the zero-to-hundred range and a nonempty
literal glyph list, the resolver returns the list element at the computed
index, that element is a member of the list, and the index is monotone
non-decreasing in the reading. -/
theorem C6_resolver_monotone (config : Config) (v1 v2 : String) (L : List String)
    (q1 q2 : ℚ) (hL : L ≠ [])
    (h1 : parseFloat (goTrimSpace (stripPct v1)) = some q1)
    (h2 : parseFloat (goTrimSpace (stripPct v2)) = some q2)
    (hq1 : 0 ≤ q1) (h12 : q1 ≤ q2) (hq2 : q2 ≤ 100) :
    SymbolFn config [.str v1, .strList L]
        = .ok (L.getD (symbolIdx q1 L.length).toNat "")
    ∧ SymbolFn config [.str v2, .strList L]
        = .ok (L.getD (symbolIdx q2 L.length).toNat "")
    ∧ L.getD (symbolIdx q1 L.length).toNat "" ∈ L
    ∧ L.getD (symbolIdx q2 L.length).toNat "" ∈ L
    ∧ symbolIdx q1 L.length ≤ symbolIdx q2 L.length := by
  have hL1 : 1 ≤ L.length := List.length_pos.mpr hL
  have key : ∀ (v : String) (q : ℚ), parseFloat (goTrimSpace (stripPct v)) = some q →
      0 ≤ q → q ≤ 100 →
      SymbolFn config [.str v, .strList L]
          = .ok (L.getD (symbolIdx q L.length).toNat "")
        ∧ L.getD (symbolIdx q L.length).toNat "" ∈ L := by
    intro v q hp h0 h100
    have hS : effSymbolList config [.str v, .strList L] = L :=
      effSymbolList_strList config _ L hL
    have hscale : effScale config [.str v, .strList L] = 1 :=
      effScale_two config _ _
    simp only [SymbolFn, sprintfV, hp, symbolRun, hS, hscale]
    simp only [symbolChoose, div_one]
    rw [if_pos h100]
    exact goIndex_mem (symbolIdx_nonneg h0 hL1) (symbolIdx_lt h0 h100 hL1)
  obtain ⟨e1, m1⟩ := key v1 q1 h1 hq1 (le_trans h12 hq2)
  obtain ⟨e2, m2⟩ := key v2 q2 h2 (le_trans hq1 h12) hq2
  exact ⟨e1, e2, m1, m2, symbolIdx_mono hq1 h12 hL1⟩

/-- Witness for C6 at readings 30 and 60 (the second percent-suffixed)
over a three-glyph list: the indices step from zero to one. -/
theorem C6_witness :
    SymbolFn {} [.str "30", .strList ["a", "b", "c"]] = .ok "a"
    ∧ SymbolFn {} [.str "60%", .strList ["a", "b", "c"]] = .ok "b"
    ∧ symbolIdx 30 3 ≤ symbolIdx 60 3 := by
  have h := C6_resolver_monotone {} "30" "60%" ["a", "b", "c"] 30 60 (by decide)
    (by with_unfolding_all decide) (by with_unfolding_all decide)
    (by with_unfolding_all decide) (by with_unfolding_all decide)
    (by with_unfolding_all decide)
  obtain ⟨hA, hB, -, -, hM⟩ := h
  refine ⟨?_, ?_, by simpa using hM⟩
  · rw [hA]
    have : (["a", "b", "c"].getD (symbolIdx 30 (["a", "b", "c"] : List String).length).toNat "") = "a" := by
      with_unfolding_all decide
    rw [this]
  · rw [hB]
    have : (["a", "b", "c"].getD (symbolIdx 60 (["a", "b", "c"] : List String).length).toNat "") = "b" := by
      with_unfolding_all decide
    rw [this]

/-- A template with no action opener renders to itself. -/
theorem tmplScan_literal (text : String) (acc cs : List Char) (h : lbraceChar ∉ cs) :
    tmplScan text false acc cs = .ok cs := by
  induction cs generalizing acc with
  | nil => rfl
  | cons c1 rest ih =>
    cases rest with
    | nil => rfl
    | cons c2 rest2 =>
      have hc1 : ¬(c1 = lbraceChar ∧ c2 = lbraceChar) := by
        rintro ⟨ha, -⟩
        exact h (by rw [← ha]; exact List.mem_cons_self _ _)
      rw [tmplScan, if_neg hc1, ih acc (fun hm => h (List.mem_cons_of_mem _ hm))]
      rfl

/-- A template string with no action opener renders to itself. -/
theorem tmplRender_literal (tmplStr text : String) (h : lbraceChar ∉ tmplStr.data) :
    tmplRender tmplStr text = .ok tmplStr := by
  rw [tmplRender, tmplScan_literal text [] tmplStr.data h]
  cases tmplStr
  rfl

/-- A field whose configured value has no action opener renders to
itself. -/
theorem renderField_literal (fieldName text tmplStr : String)
    (h : lbraceChar ∉ tmplStr.data) :
    renderField fieldName text tmplStr = .ok tmplStr := by
  by_cases he : tmplStr = ""
  · rw [renderField, if_pos he]
  · rw [renderField, if_neg he, tmplRender_literal tmplStr text h]

/-- A successful field loop renders the name field: the produced item's
name is whatever the template engine made of the stamped name. -/
theorem renderAllFields_name (text : String) (o o2 : Output)
    (h : renderAllFields text o = .ok o2) :
    ∃ nm, renderField "Name" text o.name = .ok nm ∧ o2.name = nm := by
  rw [renderAllFields] at h
  simp only [bind, Except.bind, pure, Except.pure] at h
  split at h
  · exact absurd h (by simp)
  next nm hnm =>
    refine ⟨nm, hnm, ?_⟩
    split at h
    · exact absurd h (by simp)
    next v2 h2 =>
      split at h
      · exact absurd h (by simp)
      next v3 h3 =>
        split at h
        · exact absurd h (by simp)
        next v4 h4 =>
          split at h
          · exact absurd h (by simp)
          next v5 h5 =>
            split at h
            · exact absurd h (by simp)
            next v6 h6 =>
              split at h
              · exact absurd h (by simp)
              next v7 h7 =>
                split at h
                · exact absurd h (by simp)
                next v8 h8 =>
                  injection h with hh
                  rw [← hh]

/-- Counterexample to claim C2: the name field is set before — not after —
the reflection templating loop and is itself passed through the templating
step, so a block whose name is a template action yields a rendered item
whose name is the captured text, not the block's name. -/
theorem C2_counterexample :
    executeBlock wHello blockTmplName = .ok { name := "hello" }
    ∧ ("hello" : String) ≠ blockTmplName.name := by
  exact ⟨by decide, by decide⟩

/-- Claim C2 (amended): the name field is assigned by the system before
template rendering and, like every string output field, is itself passed
through the templating step; for every block whose name holds no
template-action opener the rendered item's name still equals the block's
name, and a configuration that pre-sets the output name field is rejected
as an error. -/
theorem C2_name_invariant :
    (∀ (w : TickWorld) (block : Block) (o : Output),
        lbraceChar ∉ block.name.data →
        executeBlock w block = .ok o →
        o.name = block.name)
    ∧ (∀ (w : TickWorld) (block : Block) (s : String),
        block.output.name ≠ "" →
        blockExec w block = .ok s →
        executeBlock w block = .error .nameFieldSet) := by
  constructor
  · intro w block o hname hok
    unfold executeBlock at hok
    cases hbe : blockExec w block with
    | error e => rw [hbe] at hok; simp at hok
    | ok s =>
      rw [hbe] at hok
      dsimp only at hok
      by_cases hpre : block.output.name ≠ ""
      · rw [if_pos hpre] at hok; simp at hok
      · rw [if_neg hpre] at hok
        obtain ⟨nm, hnm, ho2⟩ := renderAllFields_name _ _ _ hok
        rw [show ({ block.output with name := block.name } : Output).name
            = block.name from rfl] at hnm
        rw [renderField_literal _ _ _ hname] at hnm
        injection hnm with hh
        rw [ho2, ← hh]
  · intro w block s hpre hexec
    unfold executeBlock
    rw [hexec]
    dsimp only
    rw [if_pos hpre]

/-- Witness for the amended C2: a plainly named block keeps its name on
the rendered item, and a pre-set output name is rejected. -/
theorem C2_witness :
    ({ name := "A" } : Output).name = blockPlain.name
    ∧ executeBlock wHello blockPresetName = .error .nameFieldSet := by
  constructor
  · exact C2_name_invariant.1 wHello blockPlain { name := "A" } (by decide) (by decide)
  · exact C2_name_invariant.2 wHello blockPresetName "hello" (by decide) (by decide)

/-- Claim C3 under test: before a handler launch the dispatcher does set
the three click variables process-wide, but the restore of the prior
environment is deferred inside the loop, so it runs only when the
dispatcher function returns — after the first event is handled the click
variables are still set while the next record is processed, and the
original environment comes back only at end of input.  Evaluated on two
consecutive well-formed click events after the swallowed header line. -/
theorem C3_env_restore_deferred :
    getenv envStart "BUTTON" = none
    ∧ getenv ((handleClickEvents cfgClick unmTwo envStart
          ["hdr", "\x7bone\x7d", "\x7btwo\x7d"]).invocations.getD 0
            ⟨"", "", "", false, []⟩).envAt "BUTTON" = some "Left"
    ∧ getenv ((handleClickEvents cfgClick unmTwo envStart
          ["hdr", "\x7bone\x7d", "\x7btwo\x7d"]).invocations.getD 0
            ⟨"", "", "", false, []⟩).envAt "X" = some "5"
    ∧ getenv ((handleClickEvents cfgClick unmTwo envStart
          ["hdr", "\x7bone\x7d", "\x7btwo\x7d"]).invocations.getD 0
            ⟨"", "", "", false, []⟩).envAt "Y" = some "7"
    ∧ getenv (dispatchLines cfgClick unmTwo ⟨envStart, [], []⟩
          ["\x7bone\x7d"]).env "BUTTON" = some "Left"
    ∧ (dispatchLines cfgClick unmTwo ⟨envStart, [], []⟩
          ["\x7bone\x7d"]).deferredEnvs = [envStart]
    ∧ (handleClickEvents cfgClick unmTwo envStart
          ["hdr", "\x7bone\x7d", "\x7btwo\x7d"]).invocations.length = 2
    ∧ finalEnv (handleClickEvents cfgClick unmTwo envStart
          ["hdr", "\x7bone\x7d", "\x7btwo\x7d"]) = envStart := by
  refine ⟨by decide, by decide, by decide, by decide, by decide, by decide, by decide,
    by decide⟩
